import Mathlib

/-!
Shallow embedding of the veloren-inventory-bot session core (`src/main.rs`):
the clock, the `until` blocking-wait primitive, the character-spawn loop
(`spawn_first_character` / `until_create_character`), the per-tick invite and
trade decision logic of `on_event`, and the main session loop.

The external session object (the `Client`) is modelled as a record of the
fields the bot reads.  The server-driven evolution of that state across ticks
is an oracle `Trace` mapping each tick index to either a session error or the
post-tick client state together with that tick's events.  Action-issuing
calls (`request_character`, `create_character`, `accept_invite`,
`decline_invite`, `perform_trade_action`, `send_invite`, `load_character_list`)
are recorded in an output list in program order.  The `Clock` only feeds a
fixed `dt` into ticks and accumulates elapsed time, so it is modelled
explicitly where it is observable (`until`) and elided where it cannot
influence control flow.  Loops are given explicit fuel; running out of fuel is
reported as a distinct outcome, never confused with program behaviour.
-/

namespace VeloBot

abbrev Uid := Nat

/-- Opaque stand-in for `veloren_client::Error`. -/
abbrev SessionError := Nat

/-- `veloren_common::clock::Clock`: fixed tick duration plus an elapsed-time
accumulator (`tick` advances the accumulator by `dt`). -/
structure Clock where
  dt : Nat
  elapsed : Nat
deriving DecidableEq

def Clock.tick (c : Clock) : Clock :=
  { c with elapsed := c.elapsed + c.dt }

/-- Result of running the `Until::until` loop with explicit fuel.
`result = none` means the fuel ran out (the Rust loop would still be
running); otherwise `result` is exactly what `until` returns.  `advances`
counts calls to `Client::tick`, `cleanups` counts calls to
`Client::cleanup` (each of which is immediately followed by one
`Clock::tick`, so `cleanups` also counts clock ticks). -/
structure UntilResult (E Ev S : Type) where
  result : Option (Except E Ev)
  state : S
  clock : Clock
  advances : Nat
  cleanups : Nat

/-- `Until::until` from `src/main.rs` lines 57-80:
```
loop {
    let tick = self.tick(inputs, clock.dt(), |_| {});
    if tick.is_ok() { if predicate(self) { return tick; } }
    else { return tick; }
    self.cleanup();
    clock.tick();
}
```
`tickFn` advances the session state and yields the tick's events,
`cleanupFn` is `Client::cleanup`, `pred` is the caller's predicate
(evaluated on the post-tick state, only when the tick succeeded). -/
def untilAux {S E Ev : Type} (tickFn : S → Except E (S × Ev)) (cleanupFn : S → S)
    (pred : S → Bool) : Nat → S → Clock → UntilResult E Ev S
  | 0, s, ck => ⟨none, s, ck, 0, 0⟩
  | Nat.succ fuel, s, ck =>
    match tickFn s with
    | .error e => ⟨some (.error e), s, ck, 1, 0⟩
    | .ok (s', ev) =>
      if pred s' then ⟨some (.ok ev), s', ck, 1, 0⟩
      else
        let r := untilAux tickFn cleanupFn pred fuel (cleanupFn s') ck.tick
        { r with advances := r.advances + 1, cleanups := r.cleanups + 1 }

/-- `comp::body::humanoid::Species` (only the variant the bot uses is named). -/
inductive Species where
  | draugr
  | otherSpecies
deriving DecidableEq

/-- `comp::body::humanoid::BodyType`. -/
inductive BodyType where
  | female
  | male
deriving DecidableEq

/-- `comp::body::humanoid::Body` as constructed in `until_create_character`. -/
structure Body where
  species : Species
  body_type : BodyType
  hair_style : Nat
  beard : Nat
  eyes : Nat
  accessory : Nat
  hair_color : Nat
  skin : Nat
  eye_color : Nat
deriving DecidableEq

/-- The literal body built in `until_create_character` (lines 86-96). -/
def defaultBody : Body :=
  { species := .draugr, body_type := .female, hair_style := 0, beard := 1,
    eyes := 0, accessory := 1, hair_color := 0, skin := 0, eye_color := 0 }

/-- One entry of `client.character_list().characters`: the inner
`character` record carries an optional server-assigned id and an alias. -/
structure CharacterItem where
  id : Option Nat
  alias_name : String
deriving DecidableEq

/-- `client.character_list()`: a loading flag plus the ordered roster. -/
structure CharacterList where
  loading : Bool
  characters : List CharacterItem
deriving DecidableEq

/-- `veloren_common::trade::TradePhase` (opaque to the bot: it is only
echoed back inside `TradeAction::Accept`). -/
inductive TradePhase where
  | mutate
  | review
  | complete
deriving DecidableEq

/-- The part of `client.pending_trade()` the bot reads: the ordered party
list and the current phase. -/
structure PendingTrade where
  parties : List Uid
  phase : TradePhase
deriving DecidableEq

/-- `comp::invite::InviteKind` (the bot only ever constructs `Trade`). -/
inductive InviteKind where
  | trade
  | group
deriving DecidableEq

/-- The fields of `veloren_client::Client` that `src/main.rs` reads.
`invite` holds the inviter uid: the code reads only component `.0` of the
pending invite.  `player_list` is the uid-to-player-info map, reduced to the
`player_alias` field the code reads. -/
structure ClientState where
  presence : Option Unit
  character_list : CharacterList
  invite : Option Uid
  player_list : List (Uid × String)
  is_trading : Bool
  pending_trade : Option PendingTrade
deriving DecidableEq

/-- `client.player_list().get(&uid)` reduced to the alias field. -/
def playerListGet (player_list : List (Uid × String)) (uid : Uid) : Option String :=
  (player_list.find? (fun p => p.1 == uid)).map Prod.snd

/-- `AliasOfUid::alias_of_uid` (lines 38-45): the alias from the player
list, or the literal `"Unknown"` when the uid is not present. -/
def alias_of_uid (player_list : List (Uid × String)) (uid : Uid) : String :=
  match playerListGet player_list uid with
  | some a => a
  | none => "Unknown"

/-- Every action-issuing `Client` call made by `src/main.rs`. -/
inductive Action where
  | loadCharacterList
  | requestCharacter (id : Nat)
  | createCharacter (name : String) (body : Body)
  | acceptInvite
  | declineInvite
  | tradeAccept (phase : TradePhase)
  | sendInvite (uid : Uid) (kind : InviteKind)
deriving DecidableEq

/-- The invite block of `on_event` (lines 142-153): if there is a pending
invite whose inviter is found in the player list, accept when the alias
equals `TARGET_USERNAME` and decline otherwise.  When the inviter is not in
the player list the `if let` fails and the block issues nothing. -/
def inviteActions (c : ClientState) (target : String) : List Action :=
  match c.invite with
  | some inviter_id =>
    match playerListGet c.player_list inviter_id with
    | some player_alias =>
      if player_alias = target then [.acceptInvite] else [.declineInvite]
    | none => []
  | none => []

/-- The trade block of `on_event` (lines 156-191): when trading with a
pending trade whose first party resolves (via `alias_of_uid`) to
`TARGET_USERNAME`, issue `TradeAction::Accept` carrying the current phase;
otherwise issue nothing.  The inventory-summarisation loop inside the accept
branch only reads ECS components and prints; it issues no session action, so
it contributes nothing to the action list. -/
def tradeActions (c : ClientState) (target : String) : List Action :=
  if c.is_trading then
    match c.pending_trade with
    | some pending_trade =>
      match pending_trade.parties.head? with
      | some initiator_id =>
        if alias_of_uid c.player_list initiator_id = target then
          [.tradeAccept pending_trade.phase]
        else []
      | none => []
    | none => []
  else []

/-- `ChatType`, reduced to the one variant the bot matches on. -/
inductive ChatType where
  | tell (fromUid toUid : Uid)
  | otherChat
deriving DecidableEq

/-- A chat message; the bot only inspects `chat_type`. -/
structure ChatMsg where
  chat_type : ChatType
deriving DecidableEq

/-- `veloren_client::Event`, reduced to the variants the main loop matches. -/
inductive GameEvent where
  | chat (message : ChatMsg)
  | disconnect
  | otherEvent
deriving DecidableEq

/-- The per-event match of the main loop (lines 245-262): on a `Tell` chat
message whose sender resolves to `TARGET_USERNAME`, send a trade invite to
that sender; every other event only prints. -/
def handleEvent (c : ClientState) (target : String) : GameEvent → List Action
  | .chat message =>
    match message.chat_type with
    | .tell fromUid _toUid =>
      if alias_of_uid c.player_list fromUid = target then
        [.sendInvite fromUid .trade]
      else []
    | .otherChat => []
  | .disconnect => []
  | .otherEvent => []

/-- All actions issued by the main loop's event iteration, in order. -/
def handleEvents (c : ClientState) (target : String) (events : List GameEvent) : List Action :=
  (events.map (handleEvent c target)).flatten

/-- The environment oracle: for each tick index, `Client::tick` either fails
with a session error or yields the post-tick client state and the tick's
events.  Quantifying theorems over all traces over-approximates every
behaviour of the remote server. -/
abbrev Trace := Nat → Except SessionError (ClientState × List GameEvent)

/-- The tick function on (tick index, client state) pairs induced by a
trace; this is the `S` instance at which the spawn machine calls
`Until::until`.  `Client::cleanup` does not change any field the bot reads,
and the next tick's state comes from the trace, so the `cleanupFn` argument
below is the identity. -/
def tickOfTrace (trace : Trace) :
    Nat × ClientState → Except SessionError ((Nat × ClientState) × List GameEvent)
  | (i, _c) =>
    match trace i with
    | .ok (c', ev) => .ok ((i + 1, c'), ev)
    | .error e => .error e

/-- `until_create_character` (lines 82-103): build `defaultBody`, issue
`create_character("Inventory Character", ..)`, then block in
`Until::until` with predicate `!character_list().loading`.  Returns the
issued action together with the wait's outcome; the wait starts ticking at
trace index `i`. -/
def until_create_character (trace : Trace) (fuel i : Nat) (c : ClientState) :
    List Action × UntilResult SessionError (List GameEvent) (Nat × ClientState) :=
  ([.createCharacter "Inventory Character" defaultBody],
   untilAux (tickOfTrace trace) id (fun sc => !sc.2.character_list.loading)
     fuel (i, c) ⟨0, 0⟩)

/-- How a run of `spawn_first_character` ended.  `panicIdNone` is the
`character.id.unwrap()` panic on line 119; `createFailed` is the
`.expect("Unable to create a new character")` panic on line 124;
`fuelOut` means the modelling fuel ran out while the loop was still
running. -/
inductive SpawnOutcome where
  | present
  | fuelOut
  | panicIdNone
  | createFailed (e : SessionError)
deriving DecidableEq

/-- Result of a spawn-machine run: the actions issued in order, the number
of `Client::tick` calls (trace reads), the next unread trace index, the
client state at exit, and how the run ended. -/
structure SpawnResult where
  actions : List Action
  advances : Nat
  nextIdx : Nat
  client : ClientState
  outcome : SpawnOutcome
deriving DecidableEq

/-- The `while client.presence().is_none()` loop of `spawn_first_character`
(lines 109-131).  Each iteration ticks; on a failed tick the body is
skipped (the error is discarded) and the loop continues.  On a successful
tick, once the roster is no longer loading: a non-empty roster requests the
first entry's id (`unwrap` panics if that id is unassigned); an empty
roster runs `until_create_character`, whose failure panics via `expect`. -/
def spawnLoop (trace : Trace) : Nat → Nat → ClientState → SpawnResult
  | 0, i, c => ⟨[], 0, i, c, .fuelOut⟩
  | Nat.succ fuel, i, c =>
    if c.presence.isSome then ⟨[], 0, i, c, .present⟩
    else
      match trace i with
      | .error _e =>
        let r := spawnLoop trace fuel (i + 1) c
        { r with advances := r.advances + 1 }
      | .ok (c', _ev) =>
        if c'.character_list.loading then
          let r := spawnLoop trace fuel (i + 1) c'
          { r with advances := r.advances + 1 }
        else
          match c'.character_list.characters with
          | item :: _rest =>
            match item.id with
            | some cid =>
              let r := spawnLoop trace fuel (i + 1) c'
              { r with actions := .requestCharacter cid :: r.actions,
                       advances := r.advances + 1 }
            | none => ⟨[], 1, i + 1, c', .panicIdNone⟩
          | [] =>
            let u := until_create_character trace fuel (i + 1) c'
            match u.2.result with
            | some (.ok _ev) =>
              let r := spawnLoop trace fuel u.2.state.1 u.2.state.2
              { r with actions := u.1 ++ r.actions,
                       advances := r.advances + u.2.advances + 1 }
            | some (.error e) =>
              ⟨u.1, u.2.advances + 1, u.2.state.1, u.2.state.2, .createFailed e⟩
            | none =>
              ⟨u.1, u.2.advances + 1, u.2.state.1, u.2.state.2, .fuelOut⟩

/-- `spawn_first_character` (lines 105-132): issue `load_character_list`
once, then run the spawn loop starting at trace index `i`. -/
def spawn_first_character (trace : Trace) (fuel i : Nat) (c : ClientState) : SpawnResult :=
  let r := spawnLoop trace fuel i c
  { r with actions := .loadCharacterList :: r.actions }

/-- `on_event` (lines 134-192): spawn first when presence is absent (this
consumes trace ticks), then run the invite block and the trade block on the
current client snapshot.  A spawn that did not reach presence aborts the
step with its outcome. -/
def on_event (trace : Trace) (target : String) (fuel i : Nat) (c : ClientState) : SpawnResult :=
  if c.presence.isSome then
    { actions := inviteActions c target ++ tradeActions c target,
      advances := 0, nextIdx := i, client := c, outcome := .present }
  else
    let r := spawn_first_character trace fuel i c
    match r.outcome with
    | .present =>
      { r with actions := r.actions ++ inviteActions r.client target ++ tradeActions r.client target }
    | _ => r

/-- How a main-loop run ended: a failed top-level `client.tick` (logged and
`break`), exhaustion of the modelling fuel, or a panic propagated out of the
spawn machine. -/
inductive MainOutcome where
  | fuelOut
  | sessionError (e : SessionError)
  | spawnFailed (o : SpawnOutcome)
deriving DecidableEq

/-- Result of a main-loop run: all actions issued in order, the total
number of `Client::tick` calls (trace reads, spawn-internal ones included),
and how the run ended. -/
structure MainResult where
  actions : List Action
  advances : Nat
  outcome : MainOutcome
deriving DecidableEq

/-- The `loop` of `main` (lines 233-266): tick; on error, log and `break`
(no further tick of any kind); on success run `on_event` (which may spawn),
then iterate the tick's events, then `cleanup` and `clock.tick`, and loop. -/
def mainLoop (trace : Trace) (target : String) : Nat → Nat → ClientState → MainResult
  | 0, _i, _c => ⟨[], 0, .fuelOut⟩
  | Nat.succ fuel, i, _c =>
    match trace i with
    | .error e => ⟨[], 1, .sessionError e⟩
    | .ok (c', events) =>
      let st := on_event trace target fuel (i + 1) c'
      match st.outcome with
      | .present =>
        let r := mainLoop trace target fuel st.nextIdx st.client
        { actions := st.actions ++ handleEvents st.client target events ++ r.actions,
          advances := 1 + st.advances + r.advances,
          outcome := r.outcome }
      | o => { actions := st.actions, advances := 1 + st.advances, outcome := .spawnFailed o }

/-! Concrete client snapshots and traces used by the settled claims. -/

/-- A snapshot with a pending invite from uid 5 who is absent from the
player list. -/
def inviteGhost : ClientState :=
  { presence := some (), character_list := ⟨false, [⟨some 1, "Bot"⟩]⟩,
    invite := some 5, player_list := [], is_trading := false,
    pending_trade := none }

/-- A snapshot with a pending invite from uid 5, whose alias is "Friend". -/
def inviteFriend : ClientState :=
  { presence := some (), character_list := ⟨false, [⟨some 1, "Bot"⟩]⟩,
    invite := some 5, player_list := [(5, "Friend")], is_trading := false,
    pending_trade := none }

/-- A snapshot in an active trade whose first party (uid 5) is "Friend". -/
def tradeFriend : ClientState :=
  { presence := some (), character_list := ⟨false, [⟨some 1, "Bot"⟩]⟩,
    invite := none, player_list := [(5, "Friend"), (9, "Bot")],
    is_trading := true, pending_trade := some ⟨[5, 9], .review⟩ }

/-- A spawned, idle snapshot: present, roster loaded, no invite, no trade. -/
def steadyClient : ClientState :=
  { presence := some (), character_list := ⟨false, [⟨some 1, "Bot"⟩]⟩,
    invite := none, player_list := [(1, "Bot")], is_trading := false,
    pending_trade := none }

/-- Scenario F: five good ticks, then the advance fails with error 42. -/
def traceScenarioF : Trace :=
  fun i => if i < 5 then .ok (steadyClient, []) else .error 42

/-- A trace on which every advance fails with error 7. -/
def traceAllError : Trace := fun _ => .error 7

/-- A present snapshot whose roster is still loading (so a spawn iteration
that sees it issues no action). -/
def loadingPresent : ClientState :=
  { presence := some (), character_list := ⟨true, []⟩, invite := none,
    player_list := [], is_trading := false, pending_trade := none }

/-- The same snapshot with presence absent. -/
def absentClient : ClientState :=
  { presence := none, character_list := ⟨true, []⟩, invite := none,
    player_list := [], is_trading := false, pending_trade := none }

/-- The spawn loop's first advance fails, the next one succeeds and finds
presence: the failure is ignored and the loop keeps advancing. -/
def traceC8 : Trace :=
  fun i => if i = 0 then .error 3 else .ok (loadingPresent, [])

/-! Claims about the invite and trade decision blocks. -/

/-- C1 (counterexample): a pending invite whose inviter uid 5 is not in the
player roster.  The claim says the alias resolves to the fallback
"Unknown", which differs from the target "Friend", so exactly one decline
is issued; the code's `if let` on the roster lookup fails instead and the
tick issues zero invite actions. -/
theorem C1_counterexample :
    inviteGhost.invite = some 5 ∧
    playerListGet inviteGhost.player_list 5 = none ∧
    alias_of_uid inviteGhost.player_list 5 = "Unknown" ∧
    "Unknown" ≠ "Friend" ∧
    inviteActions inviteGhost "Friend" = [] := by
  refine ⟨rfl, rfl, rfl, by decide, rfl⟩

/-- C1 (amended): on a tick with a pending invite, when the inviter's uid
is present in the player roster its alias is compared case-sensitively to
the target: equal gives exactly one accept, different gives exactly one
decline; when the uid is not in the roster, no invite action at all is
issued (the "Unknown" fallback of `alias_of_uid` is not used on the invite
path). -/
theorem C1_invite_decision (c : ClientState) (target : String) (uid : Uid)
    (hinv : c.invite = some uid) :
    (∀ a, playerListGet c.player_list uid = some a →
      inviteActions c target =
        if a = target then [Action.acceptInvite] else [Action.declineInvite]) ∧
    (playerListGet c.player_list uid = none → inviteActions c target = []) := by
  constructor
  · intro a ha
    simp [inviteActions, hinv, ha]
  · intro ha
    simp [inviteActions, hinv, ha]

/-- C1 witness: the amended decision evaluated on a concrete invite from
"Friend" with target "Friend" (one accept) and target "Stranger" (one
decline). -/
theorem C1_witness :
    inviteActions inviteFriend "Friend" = [Action.acceptInvite] ∧
    inviteActions inviteFriend "Stranger" = [Action.declineInvite] := by
  constructor
  · have h := (C1_invite_decision inviteFriend "Friend" 5 rfl).1 "Friend" rfl
    rw [h]; decide
  · have h := (C1_invite_decision inviteFriend "Stranger" 5 rfl).1 "Friend" rfl
    rw [h]; decide

/-- C2: on a tick with an active pending trade, the first element of the
party list is treated as the initiator; if its resolved alias equals the
target exactly one `TradeAction::Accept` carrying the trade's current phase
is issued, and otherwise zero trade actions are issued (no explicit
decline). -/
theorem C2_trade_decision (c : ClientState) (target : String) (pt : PendingTrade)
    (u : Uid) (rest : List Uid)
    (htr : c.is_trading = true) (hpt : c.pending_trade = some pt)
    (hp : pt.parties = u :: rest) :
    tradeActions c target =
      if alias_of_uid c.player_list u = target then [Action.tradeAccept pt.phase]
      else [] := by
  simp [tradeActions, htr, hpt, hp]

/-- C2 witness: the trade decision evaluated on a concrete pending trade at
phase `review` initiated by "Friend", with matching and non-matching
targets. -/
theorem C2_witness :
    tradeActions tradeFriend "Friend" = [Action.tradeAccept TradePhase.review] ∧
    tradeActions tradeFriend "Stranger" = [] := by
  constructor
  · rw [C2_trade_decision tradeFriend "Friend" ⟨[5, 9], .review⟩ 5 [9] rfl rfl rfl]
    decide
  · rw [C2_trade_decision tradeFriend "Stranger" ⟨[5, 9], .review⟩ 5 [9] rfl rfl rfl]
    decide

/-- C9: a `Tell` chat event whose sender resolves (via `alias_of_uid`) to
the target results in exactly one trade invite sent to that sender on the
same tick, and in no action for any other sender alias. -/
theorem C9_tell_invite (c : ClientState) (target : String) (fromUid toUid : Uid) :
    handleEvent c target (.chat ⟨.tell fromUid toUid⟩) =
      if alias_of_uid c.player_list fromUid = target then
        [Action.sendInvite fromUid InviteKind.trade]
      else [] := rfl

/-! Claims about error handling in the main loop and the spawn loop. -/

/-- C7: when the main loop's per-tick advance fails, the loop performs
exactly that one (failing) advance, issues no action, and exits with the
logged session error — no later advance is ever attempted, whatever fuel
remains.  Conjoined: scenario F, where the advance fails on the sixth tick
(index 5) and the whole run performs exactly 6 advances. -/
theorem C7_mainloop_stops_on_error :
    (∀ (trace : Trace) (target : String) (fuel i : Nat) (c : ClientState)
       (e : SessionError), trace i = .error e →
       mainLoop trace target (fuel + 1) i c = ⟨[], 1, .sessionError e⟩) ∧
    mainLoop traceScenarioF "Friend" 100 0 steadyClient =
      ⟨[], 6, .sessionError 42⟩ := by
  constructor
  · intro trace target fuel i c e h
    simp [mainLoop, h]
  · decide

/-- C7 witness: the step theorem applied to a concrete failing trace. -/
theorem C7_witness :
    mainLoop traceAllError "Friend" 3 0 steadyClient = ⟨[], 1, .sessionError 7⟩ :=
  C7_mainloop_stops_on_error.1 traceAllError "Friend" 2 0 steadyClient 7 rfl

/-- C8 (counterexample): a spawn-loop run whose first advance fails with
error 3 and which nevertheless performs a second advance and terminates
normally with presence — refuting the claim that a failing advance inside
the spawn loop stops all further advances and terminates the loop. -/
theorem C8_counterexample :
    traceC8 0 = Except.error 3 ∧
    absentClient.presence = none ∧
    (spawn_first_character traceC8 5 0 absentClient).outcome = SpawnOutcome.present ∧
    (spawn_first_character traceC8 5 0 absentClient).advances = 2 := by
  refine ⟨rfl, rfl, by decide, by decide⟩

/-- C8 (amended): inside the spawn loop a failed advance is silently
ignored for that iteration — no roster inspection, no action, client state
unchanged — and while presence is still absent the loop cleans up, ticks
the clock, and advances again; failed advances end the session only in
`Until::until` and in the main loop. -/
theorem C8_spawn_ignores_tick_error (trace : Trace) (fuel i : Nat)
    (c : ClientState) (e : SessionError)
    (hp : c.presence = none) (he : trace i = .error e) :
    spawnLoop trace (fuel + 1) i c =
      { spawnLoop trace fuel (i + 1) c with
          advances := (spawnLoop trace fuel (i + 1) c).advances + 1 } := by
  simp [spawnLoop, hp, he]

/-- C8 witness: the amended step theorem applied to a concrete failing
trace and absent client. -/
theorem C8_witness :
    spawnLoop traceAllError 1 0 absentClient =
      { spawnLoop traceAllError 0 1 absentClient with
          advances := (spawnLoop traceAllError 0 1 absentClient).advances + 1 } :=
  C8_spawn_ignores_tick_error traceAllError 0 0 absentClient 7 rfl rfl

/-! Claims about the blocking-wait primitive `Until::until`. -/

/-- C3: on a session stream whose advances all succeed and where the
predicate first holds on the post-advance state of the `n`-th tick, `until`
returns success with exactly that tick's events, performing exactly `n`
advances, `n - 1` cleanups and `n - 1` clock ticks — nothing runs after the
predicate is first observed true.  The trajectory is given by `σ` (state
before each advance), `π` (state just after each advance, on which the
predicate is evaluated) and `η` (the events of each advance). -/
theorem C3_until_first_success {S E Ev : Type}
    (tickFn : S → Except E (S × Ev)) (cleanupFn : S → S) (pred : S → Bool)
    (σ π : Nat → S) (η : Nat → Ev) (n : Nat) (ck : Clock) (fuel : Nat)
    (hstep : ∀ k, k < n → tickFn (σ k) = .ok (π (k + 1), η (k + 1)))
    (hclean : ∀ k, k + 1 < n → σ (k + 1) = cleanupFn (π (k + 1)))
    (hfalse : ∀ k, 0 < k → k < n → pred (π k) = false)
    (htrue : pred (π n) = true)
    (hn : 0 < n) (hfuel : n ≤ fuel) :
    untilAux tickFn cleanupFn pred fuel (σ 0) ck =
      ⟨some (.ok (η n)), π n, ⟨ck.dt, ck.elapsed + (n - 1) * ck.dt⟩, n, n - 1⟩ := by
  induction n generalizing σ π η ck fuel with
  | zero => omega
  | succ m IH =>
    obtain ⟨f, rfl⟩ : ∃ f, fuel = f + 1 := ⟨fuel - 1, by omega⟩
    cases m with
    | zero =>
      have h0 := hstep 0 (by omega)
      cases ck
      simp [untilAux, h0, htrue]
    | succ m' =>
      have h0 := hstep 0 (by omega)
      have hf1 : pred (π 1) = false := hfalse 1 (by omega) (by omega)
      have hc0 : cleanupFn (π 1) = σ 1 := (hclean 0 (by omega)).symm
      have hrec := IH (fun k => σ (k + 1)) (fun k => π (k + 1)) (fun k => η (k + 1))
        ck.tick f
        (fun k hk => hstep (k + 1) (by omega))
        (fun k hk => hclean (k + 1) (by omega))
        (fun k hk1 hk2 => hfalse (k + 1) (by omega) (by omega))
        htrue (by omega) (by omega)
      simp only [Nat.zero_add] at h0 hrec hc0
      simp only [Clock.tick, Nat.add_sub_cancel, Nat.succ_mul, Nat.add_comm,
        Nat.add_assoc, Nat.add_left_comm] at hrec
      simp [untilAux, h0, hf1, hc0, hrec, Clock.tick, Nat.add_sub_cancel,
        Nat.succ_mul, Nat.add_comm, Nat.add_assoc, Nat.add_left_comm]

/-- C4: if an advance inside `until` fails, the failure is returned
unchanged on that same iteration: the failing advance is the last one, the
predicate is not evaluated on that iteration (no hypothesis constrains it
there), and no cleanup or clock tick happens for that iteration.  The first
`n - 1` advances succeed with the predicate false; the `n`-th advance
fails. -/
theorem C4_until_error {S E Ev : Type}
    (tickFn : S → Except E (S × Ev)) (cleanupFn : S → S) (pred : S → Bool)
    (σ π : Nat → S) (η : Nat → Ev) (n : Nat) (ck : Clock) (fuel : Nat) (e : E)
    (hstep : ∀ k, k + 1 < n → tickFn (σ k) = .ok (π (k + 1), η (k + 1)))
    (hclean : ∀ k, k + 1 < n → σ (k + 1) = cleanupFn (π (k + 1)))
    (hfalse : ∀ k, 0 < k → k < n → pred (π k) = false)
    (herr : tickFn (σ (n - 1)) = .error e)
    (hn : 0 < n) (hfuel : n ≤ fuel) :
    untilAux tickFn cleanupFn pred fuel (σ 0) ck =
      ⟨some (.error e), σ (n - 1), ⟨ck.dt, ck.elapsed + (n - 1) * ck.dt⟩, n, n - 1⟩ := by
  induction n generalizing σ π η ck fuel with
  | zero => omega
  | succ m IH =>
    obtain ⟨f, rfl⟩ : ∃ f, fuel = f + 1 := ⟨fuel - 1, by omega⟩
    cases m with
    | zero =>
      cases ck
      simp [untilAux, herr]
    | succ m' =>
      have h0 := hstep 0 (by omega)
      have hf1 : pred (π 1) = false := hfalse 1 (by omega) (by omega)
      have hc0 : cleanupFn (π 1) = σ 1 := (hclean 0 (by omega)).symm
      have hrec := IH (fun k => σ (k + 1)) (fun k => π (k + 1)) (fun k => η (k + 1))
        ck.tick f
        (fun k hk => hstep (k + 1) (by omega))
        (fun k hk => hclean (k + 1) (by omega))
        (fun k hk1 hk2 => hfalse (k + 1) (by omega) (by omega))
        herr (by omega) (by omega)
      simp only [Nat.zero_add, Nat.add_sub_cancel] at h0 hrec hc0
      simp only [Clock.tick, Nat.add_sub_cancel, Nat.succ_mul, Nat.add_comm,
        Nat.add_assoc, Nat.add_left_comm] at hrec
      simp [untilAux, h0, hf1, hc0, hrec, Clock.tick, Nat.add_sub_cancel,
        Nat.succ_mul, Nat.add_comm, Nat.add_assoc, Nat.add_left_comm]

/-- Deterministic tick on `Nat` states used by the `until` witnesses. -/
def tickNat : Nat → Except Nat (Nat × Nat) := fun s => .ok (s + 1, s + 1)

/-- Tick that succeeds twice and fails on the third call. -/
def tickNatFail : Nat → Except Nat (Nat × Nat) :=
  fun s => if s < 2 then .ok (s + 1, s + 1) else .error 9

/-- C3 witness: the predicate `s == 3` first holds after the third advance;
`until` returns that tick's events with 3 advances and 2 cleanups. -/
theorem C3_witness :
    untilAux tickNat id (fun s => s == 3) 5 0 ⟨2, 0⟩ =
      ⟨some (.ok 3), 3, ⟨2, 4⟩, 3, 2⟩ :=
  C3_until_first_success tickNat id (fun s => s == 3) (fun k => k) (fun k => k)
    (fun k => k) 3 ⟨2, 0⟩ 5 (fun k _ => rfl) (fun k _ => rfl)
    (fun k hk1 hk2 => by interval_cases k <;> rfl) rfl (by omega) (by omega)

/-- C4 witness: the third advance fails with error 9; `until` returns that
error with 3 advances and 2 cleanups, for a predicate that never held. -/
theorem C4_witness :
    untilAux tickNatFail id (fun s => s == 99) 5 0 ⟨2, 0⟩ =
      ⟨some (.error 9), 2, ⟨2, 4⟩, 3, 2⟩ :=
  C4_until_error tickNatFail id (fun s => s == 99) (fun k => k) (fun k => k)
    (fun k => k) 3 ⟨2, 0⟩ 5 9
    (fun k hk => by
      have hk2 : k < 2 := by omega
      interval_cases k <;> rfl)
    (fun k _ => rfl) (fun k hk1 hk2 => by interval_cases k <;> rfl) rfl
    (by omega) (by omega)

/-! Claims about the character-spawn state machine. -/

/-- The tick index never decreases across a run of the wait primitive
instantiated with a trace. -/
theorem untilAux_trace_idx_le (trace : Trace) (pred : Nat × ClientState → Bool) :
    ∀ (fuel i : Nat) (c : ClientState) (ck : Clock),
      i ≤ (untilAux (tickOfTrace trace) id pred fuel (i, c) ck).state.1 := by
  intro fuel
  induction fuel with
  | zero => intro i c ck; exact Nat.le_refl i
  | succ f IH =>
    intro i c ck
    simp only [untilAux, tickOfTrace]
    cases htr : trace i with
    | error e => exact Nat.le_refl i
    | ok p =>
      obtain ⟨c', ev⟩ := p
      by_cases hp : pred (i + 1, c')
      · simp [hp]
      · simp only [hp, Bool.false_eq_true, if_false]
        exact Nat.le_trans (Nat.le_succ i) (IH (i + 1) c' ck.tick)

/-- If, from index `t` on, every successfully-ticked state whose roster
has finished loading has a non-empty roster, then a spawn-loop run starting
at an index at least `t` never issues a character-creation request. -/
theorem spawnLoop_no_create_from (trace : Trace) (t : Nat)
    (hne : ∀ j cj evj, t ≤ j → trace j = .ok (cj, evj) →
      cj.character_list.loading = false → cj.character_list.characters ≠ []) :
    ∀ (fuel i : Nat) (c : ClientState), t ≤ i →
      ∀ name body, Action.createCharacter name body ∉ (spawnLoop trace fuel i c).actions := by
  intro fuel
  induction fuel with
  | zero => intro i c hi name body h; simp [spawnLoop] at h
  | succ f IH =>
    intro i c hi name body h
    by_cases hp : c.presence.isSome
    · simp [spawnLoop, hp] at h
    · simp only [spawnLoop, hp, Bool.false_eq_true, if_false] at h
      cases htr : trace i with
      | error e =>
        rw [htr] at h
        exact IH (i + 1) c (by omega) name body h
      | ok p =>
        obtain ⟨c', ev⟩ := p
        rw [htr] at h
        cases hl : c'.character_list.loading with
        | true =>
          simp only [hl, if_true] at h
          exact IH (i + 1) c' (by omega) name body h
        | false =>
          simp only [hl, Bool.false_eq_true, if_false] at h
          cases hcs : c'.character_list.characters with
          | nil => exact hne i c' ev hi htr hl hcs
          | cons item rest0 =>
            simp only [hcs] at h
            cases hid : item.id with
            | some cid =>
              simp only [hid, List.mem_cons] at h
              rcases h with h | h
              · cases h
              · exact IH (i + 1) c' (by omega) name body h
            | none => simp only [hid] at h; simp at h

/-- Every action issued by a spawn-loop run on a trace whose loaded rosters
are always non-empty is a `request_character` for the id of the first entry
of some successfully-ticked, loaded roster. -/
theorem spawnLoop_request_only (trace : Trace)
    (hne : ∀ j cj evj, trace j = .ok (cj, evj) →
      cj.character_list.loading = false → cj.character_list.characters ≠ []) :
    ∀ (fuel i : Nat) (c : ClientState),
      ∀ a ∈ (spawnLoop trace fuel i c).actions,
        ∃ j cj evj item rest cid, trace j = .ok (cj, evj) ∧
          cj.character_list.loading = false ∧
          cj.character_list.characters = item :: rest ∧
          item.id = some cid ∧ a = Action.requestCharacter cid := by
  intro fuel
  induction fuel with
  | zero => intro i c a ha; simp [spawnLoop] at ha
  | succ f IH =>
    intro i c a ha
    by_cases hp : c.presence.isSome
    · simp [spawnLoop, hp] at ha
    · simp only [spawnLoop, hp, Bool.false_eq_true, if_false] at ha
      cases htr : trace i with
      | error e =>
        rw [htr] at ha
        exact IH (i + 1) c a ha
      | ok p =>
        obtain ⟨c', ev⟩ := p
        rw [htr] at ha
        cases hl : c'.character_list.loading with
        | true =>
          simp only [hl, if_true] at ha
          exact IH (i + 1) c' a ha
        | false =>
          simp only [hl, Bool.false_eq_true, if_false] at ha
          cases hcs : c'.character_list.characters with
          | nil => exact absurd hcs (hne i c' ev htr hl)
          | cons item rest0 =>
            simp only [hcs] at ha
            cases hid : item.id with
            | some cid =>
              simp only [hid, List.mem_cons] at ha
              rcases ha with rfl | ha
              · exact ⟨i, c', ev, item, rest0, cid, htr, hl, hcs, hid, rfl⟩
              · exact IH (i + 1) c' a ha
            | none => simp only [hid] at ha; simp at ha

/-- C5: on every run in which the roster, once no longer loading, is
non-empty, the spawn machine issues zero character-creation requests, and
every action it issues is either the initial roster-load request or a
character-entry request for the id of the first entry (in roster order) of
a loaded roster. -/
theorem C5_spawn_prefers_existing (trace : Trace) (fuel i : Nat) (c : ClientState)
    (hne : ∀ j cj evj, trace j = .ok (cj, evj) →
      cj.character_list.loading = false → cj.character_list.characters ≠ []) :
    (∀ name body,
      Action.createCharacter name body ∉ (spawn_first_character trace fuel i c).actions) ∧
    (∀ a ∈ (spawn_first_character trace fuel i c).actions,
      a = Action.loadCharacterList ∨
      ∃ j cj evj item rest cid, trace j = .ok (cj, evj) ∧
        cj.character_list.loading = false ∧
        cj.character_list.characters = item :: rest ∧
        item.id = some cid ∧ a = Action.requestCharacter cid) := by
  have key := spawnLoop_request_only trace hne fuel i c
  constructor
  · intro name body hmem
    simp only [spawn_first_character, List.mem_cons] at hmem
    rcases hmem with h | h
    · cases h
    · obtain ⟨j, cj, evj, item, rest, cid, _, _, _, _, habs⟩ := key _ h
      cases habs
  · intro a ha
    simp only [spawn_first_character, List.mem_cons] at ha
    rcases ha with rfl | ha
    · exact Or.inl rfl
    · exact Or.inr (key a ha)

/-- Scenario A style trace: the roster is immediately loaded with the
single character "Hero" (id 7); presence appears from index 1 on. -/
def rosterHero : ClientState :=
  { presence := none, character_list := ⟨false, [⟨some 7, "Hero"⟩]⟩,
    invite := none, player_list := [], is_trading := false,
    pending_trade := none }

/-- The same state once the character has spawned. -/
def rosterHeroPresent : ClientState :=
  { presence := some (), character_list := ⟨false, [⟨some 7, "Hero"⟩]⟩,
    invite := none, player_list := [], is_trading := false,
    pending_trade := none }

/-- Trace for scenario A: the loaded non-empty roster appears on tick 0 and
presence on tick 1. -/
def traceHero : Trace :=
  fun i => if i = 0 then .ok (rosterHero, []) else .ok (rosterHeroPresent, [])

/-- C5 witness: on the scenario-A trace the run requests only character 7
and creates nothing. -/
theorem C5_witness :
    (∀ name body, Action.createCharacter name body ∉
      (spawn_first_character traceHero 5 0 rosterHero).actions) ∧
    (spawn_first_character traceHero 5 0 rosterHero).actions =
      [Action.loadCharacterList, Action.requestCharacter 7, Action.requestCharacter 7] := by
  constructor
  · exact (C5_spawn_prefers_existing traceHero 5 0 rosterHero (by
      intro j cj evj h hl
      unfold traceHero at h
      split at h <;> · cases h; decide)).1
  · decide

/-- A loaded-and-empty roster with presence absent. -/
def emptyRoster : ClientState :=
  { presence := none, character_list := ⟨false, []⟩, invite := none,
    player_list := [], is_trading := false, pending_trade := none }

/-- Scenario B trace: loading, then loaded empty (tick 1), then loading
again while the creation is confirmed, then the created character appears,
then presence. -/
def traceScenarioB : Trace := fun i =>
  if i = 0 then .ok (absentClient, [])
  else if i = 1 then .ok (emptyRoster, [])
  else if i = 2 then .ok (absentClient, [])
  else if i = 3 then .ok (rosterHero, [])
  else .ok (rosterHeroPresent, [])

/-- Helper for C6: a run that sits through `N` indecisive iterations
(failed ticks, or successful ticks with the roster still loading and
presence absent), then on iteration `N` sees the roster loaded and empty,
on a trace whose later loaded rosters are never empty again, issues the
fixed creation request exactly once, first. -/
theorem spawnLoop_create_once_aux (trace : Trace) :
    ∀ (N i fuel : Nat) (c cN : ClientState) (evN : List GameEvent),
      c.presence = none →
      (∀ j, i ≤ j → j < i + N →
        (∃ e, trace j = .error e) ∨
        ∃ cj evj, trace j = .ok (cj, evj) ∧ cj.presence = none ∧
          cj.character_list.loading = true) →
      trace (i + N) = .ok (cN, evN) →
      cN.character_list.loading = false →
      cN.character_list.characters = [] →
      (∀ j cj evj, i + N < j → trace j = .ok (cj, evj) →
        cj.character_list.loading = false → cj.character_list.characters ≠ []) →
      N < fuel →
      ∃ tail, (spawnLoop trace fuel i c).actions =
          Action.createCharacter "Inventory Character" defaultBody :: tail ∧
        ∀ name body, Action.createCharacter name body ∉ tail := by
  intro N
  induction N with
  | zero =>
    intro i fuel c cN evN hpres hbefore hN hNl hNe hafter hfuel
    obtain ⟨f, rfl⟩ : ∃ f, fuel = f + 1 := ⟨fuel - 1, by omega⟩
    simp only [Nat.add_zero] at hN hafter
    have hps : c.presence.isSome = false := by rw [hpres]; rfl
    simp only [spawnLoop, hps, Bool.false_eq_true, if_false, hN, hNl, hNe]
    cases hu : (until_create_character trace f (i + 1) cN).2.result with
    | none =>
      exact ⟨[], by simp [hu, until_create_character], by intro name body h; cases h⟩
    | some res =>
      cases res with
      | error e =>
        exact ⟨[], by simp [hu, until_create_character], by intro name body h; cases h⟩
      | ok evs =>
        refine ⟨(spawnLoop trace f (until_create_character trace f (i + 1) cN).2.state.1
          (until_create_character trace f (i + 1) cN).2.state.2).actions,
          by simp [hu, until_create_character], ?_⟩
        intro name body
        exact spawnLoop_no_create_from trace (i + 1)
          (fun j cj evj hj htr hlj => hafter j cj evj (by omega) htr hlj)
          f _ _ (untilAux_trace_idx_le trace _ f (i + 1) cN ⟨0, 0⟩) name body
  | succ n IH =>
    intro i fuel c cN evN hpres hbefore hN hNl hNe hafter hfuel
    obtain ⟨f, rfl⟩ : ∃ f, fuel = f + 1 := ⟨fuel - 1, by omega⟩
    have hps : c.presence.isSome = false := by rw [hpres]; rfl
    have hNs : trace (i + 1 + n) = .ok (cN, evN) := by
      rw [show i + 1 + n = i + (n + 1) by omega]; exact hN
    have hafters : ∀ j cj evj, i + 1 + n < j → trace j = .ok (cj, evj) →
        cj.character_list.loading = false → cj.character_list.characters ≠ [] :=
      fun j cj evj hlt => hafter j cj evj (by omega)
    have hbefores : ∀ j, i + 1 ≤ j → j < i + 1 + n →
        (∃ e, trace j = .error e) ∨
        ∃ cj evj, trace j = .ok (cj, evj) ∧ cj.presence = none ∧
          cj.character_list.loading = true :=
      fun j hj1 hj2 => hbefore j (by omega) (by omega)
    rcases hbefore i (Nat.le_refl i) (by omega) with ⟨e, he⟩ | ⟨cj, evj, hj, hjp, hjl⟩
    · simp only [spawnLoop, hps, Bool.false_eq_true, if_false, he]
      obtain ⟨tail, h1, h2⟩ := IH (i + 1) f c cN evN hpres hbefores hNs hNl hNe
        hafters (by omega)
      exact ⟨tail, h1, h2⟩
    · simp only [spawnLoop, hps, Bool.false_eq_true, if_false, hj, hjl, if_true]
      obtain ⟨tail, h1, h2⟩ := IH (i + 1) f cj cN evN hjp hbefores hNs hNl hNe
        hafters (by omega)
      exact ⟨tail, h1, h2⟩

/-- C6: on every run of the spawn machine in which the roster, once no
longer loading, is first seen empty (and, the creation having been
acknowledged, is never seen loaded-and-empty again), exactly one
character-creation request is issued, with the fixed name
"Inventory Character" and the fixed default body, and it is issued before
any `request_character` call — it is the first action after the initial
roster-load request.  (After issuing it, the machine waits in
`until_create_character`, i.e. in `Until::until` with predicate "roster no
longer loading"; see `until_create_character`.) -/
theorem C6_create_when_empty (trace : Trace) (N fuel : Nat) (c0 cN : ClientState)
    (evN : List GameEvent)
    (h0 : c0.presence = none)
    (hbefore : ∀ j, j < N → (∃ e, trace j = .error e) ∨
      ∃ cj evj, trace j = .ok (cj, evj) ∧ cj.presence = none ∧
        cj.character_list.loading = true)
    (hN : trace N = .ok (cN, evN))
    (hNl : cN.character_list.loading = false)
    (hNe : cN.character_list.characters = [])
    (hafter : ∀ j cj evj, N < j → trace j = .ok (cj, evj) →
      cj.character_list.loading = false → cj.character_list.characters ≠ [])
    (hfuel : N < fuel) :
    ∃ tail, (spawn_first_character trace fuel 0 c0).actions =
        Action.loadCharacterList ::
        Action.createCharacter "Inventory Character" defaultBody :: tail ∧
      ∀ name body, Action.createCharacter name body ∉ tail := by
  obtain ⟨tail, h1, h2⟩ := spawnLoop_create_once_aux trace N 0 fuel c0 cN evN h0
    (fun j hj1 hj2 => hbefore j (by omega))
    (by simpa using hN) hNl hNe
    (fun j cj evj hlt => hafter j cj evj (by omega))
    hfuel
  exact ⟨tail, by simp [spawn_first_character, h1], h2⟩

/-- C6 witness: the scenario-B trace (roster loads empty on tick 1, the
created character appears after the wait). -/
theorem C6_witness :
    ∃ tail, (spawn_first_character traceScenarioB 10 0 absentClient).actions =
        Action.loadCharacterList ::
        Action.createCharacter "Inventory Character" defaultBody :: tail ∧
      ∀ name body, Action.createCharacter name body ∉ tail :=
  C6_create_when_empty traceScenarioB 1 10 absentClient emptyRoster [] rfl
    (by
      intro j hj
      interval_cases j
      exact Or.inr ⟨absentClient, [], rfl, rfl, rfl⟩)
    rfl rfl rfl
    (by
      intro j cj evj hlt h hl
      unfold traceScenarioB at h
      split at h
      · omega
      · split at h
        · omega
        · split at h
          · simp only [Except.ok.injEq, Prod.mk.injEq] at h
            obtain ⟨h1, h2⟩ := h
            subst h1
            exact absurd hl (by decide)
          · split at h <;>
            · simp only [Except.ok.injEq, Prod.mk.injEq] at h
              obtain ⟨h1, h2⟩ := h
              subst h1
              decide)
    (by omega)

/-- Helper for C10: when every character of every loaded roster produced by
the trace has an assigned id, the spawn loop never reaches the
`character.id.unwrap()` panic. -/
theorem spawnLoop_no_id_panic (trace : Trace)
    (hid : ∀ j cj evj, trace j = .ok (cj, evj) → cj.character_list.loading = false →
      ∀ item ∈ cj.character_list.characters, item.id ≠ none) :
    ∀ (fuel i : Nat) (c : ClientState),
      (spawnLoop trace fuel i c).outcome ≠ SpawnOutcome.panicIdNone := by
  intro fuel
  induction fuel with
  | zero => intro i c h; simp [spawnLoop] at h
  | succ f IH =>
    intro i c h
    by_cases hp : c.presence.isSome
    · simp [spawnLoop, hp] at h
    · simp only [spawnLoop, hp, Bool.false_eq_true, if_false] at h
      cases htr : trace i with
      | error e => simp only [htr] at h; exact IH (i + 1) c h
      | ok p =>
        obtain ⟨c', ev⟩ := p
        simp only [htr] at h
        cases hl : c'.character_list.loading with
        | true => simp only [hl, if_true] at h; exact IH (i + 1) c' h
        | false =>
          simp only [hl, Bool.false_eq_true, if_false] at h
          cases hcs : c'.character_list.characters with
          | nil =>
            simp only [hcs] at h
            cases hu : (until_create_character trace f (i + 1) c').2.result with
            | none => simp only [hu] at h; exact SpawnOutcome.noConfusion h
            | some res =>
              cases res with
              | error e => simp only [hu] at h; exact SpawnOutcome.noConfusion h
              | ok evs => simp only [hu] at h; exact IH _ _ h
          | cons item rest0 =>
            simp only [hcs] at h
            cases hid2 : item.id with
            | some cid => simp only [hid2] at h; exact IH (i + 1) c' h
            | none =>
              exact hid i c' ev htr hl item (by rw [hcs]; exact List.mem_cons_self item rest0) hid2

/-- A loaded roster whose first character has no assigned id yet. -/
def noIdRoster : ClientState :=
  { presence := none, character_list := ⟨false, [⟨none, "Hero"⟩]⟩, invite := none,
    player_list := [], is_trading := false, pending_trade := none }

/-- Trace that always reports the no-id roster. -/
def traceNoId : Trace := fun _ => .ok (noIdRoster, [])

/-- C10: the first roster entry's id is unwrapped without a guard.  Under
the precondition that every character of a loaded roster has an assigned
id, the panic branch is unreachable; without that precondition the spawn
machine panics (it does not return an error), as the conjoined concrete run
on a loaded roster whose first character has no id shows. -/
theorem C10_first_id_unwrap :
    (∀ (trace : Trace) (fuel i : Nat) (c : ClientState),
      (∀ j cj evj, trace j = .ok (cj, evj) → cj.character_list.loading = false →
        ∀ item ∈ cj.character_list.characters, item.id ≠ none) →
      (spawn_first_character trace fuel i c).outcome ≠ SpawnOutcome.panicIdNone) ∧
    (spawn_first_character traceNoId 3 0 noIdRoster).outcome = SpawnOutcome.panicIdNone := by
  constructor
  · intro trace fuel i c hid
    have h := spawnLoop_no_id_panic trace hid fuel i c
    simpa [spawn_first_character] using h
  · decide

/-- C10 witness: the guarded half applied to a trace whose rosters all
carry assigned ids. -/
theorem C10_witness :
    (spawn_first_character traceHero 5 0 rosterHero).outcome ≠ SpawnOutcome.panicIdNone :=
  C10_first_id_unwrap.1 traceHero 5 0 rosterHero (by
    intro j cj evj h hl item hmem
    unfold traceHero at h
    split at h <;>
    · simp only [Except.ok.injEq, Prod.mk.injEq] at h
      obtain ⟨h1, h2⟩ := h
      subst h1
      simp [rosterHero, rosterHeroPresent] at hmem
      subst hmem
      decide)

end VeloBot
